import Mathlib

/-!
Verification of the authorization / organisation-isolation middleware of the
edurank-glow backend (`src/backend/src/index.ts`, middleware section).

The subject code is four pure-logic pieces:
  * `checkPermission`   — the permission evaluator over `resource.action` strings;
  * `enforceOrgIsolation` — the organisation-isolation middleware (its two guard
    conditions are extracted here as `checkIsolation`, the operation the spec names);
  * `authorize`          — the conjunctive permission middleware;
  * `requireOwnershipOrAdmin` — the ownership-or-admin middleware.

Embedding conventions:
  * TypeScript `string[]` becomes `List String`; `Array.includes` becomes
    `List.contains`; `Array.some` becomes `List.any`.
  * An optional field `x?: string` (value `string | undefined`) becomes
    `Option String`, `none` standing for an absent / JS-falsy value.  All the
    identifiers flowing into these guards (UUID organisation ids, Express route
    parameters, which are non-empty when matched) are non-empty strings, so the
    source's truthiness tests on them coincide with presence (`Option.isSome`),
    and the `req.params[k] || req.body.organisationId` fallback is `Option.or`.
  * Middleware outcomes: each middleware either calls `next()` or catches its
    own `AuthorizationError` and answers HTTP 403 FORBIDDEN; this two-way
    outcome is the inductive `MWOutcome`.
-/

namespace EduRank

/-- `PermissionCheck` from `types/auth.ts`: a requested
`(resource, action, organisationId?)` triple. -/
structure PermissionCheck where
  resource : String
  action : String
  organisationId : Option String := none
deriving Repr, DecidableEq

/-- `UserRole` from `types/auth.ts`: `{ id, name, organisationId? }`. -/
structure UserRole where
  id : String
  name : String
  organisationId : Option String := none
deriving Repr, DecidableEq

/-- `UserContext` from `types/auth.ts`, restricted to the fields the
middleware under verification reads (`id`, `organisationId`, `roles`,
`permissions`); the remaining fields (email, names, tokenVersion) are never
consulted by any of the four functions. -/
structure UserContext where
  id : String
  organisationId : Option String := none
  roles : List UserRole
  permissions : List String
deriving Repr, DecidableEq

/-- Outcome of one middleware invocation: either `next()` is called and the
request proceeds, or the middleware catches its `AuthorizationError` and
responds `403 FORBIDDEN`. -/
inductive MWOutcome where
  | next
  | forbidden
deriving Repr, DecidableEq

/-- `checkPermission` from `index.ts` lines 350–383, clause for clause:
exact `resource.action` match, then the three wildcard matches, then the
`ADMIN` / `SYSTEM_ADMIN` role bypass, then the organisation-specific check
(which returns `false`), then the final `return false`. -/
def checkPermission (required : PermissionCheck) (userPermissions : List String)
    (userRoles : List UserRole) (userOrgId : Option String) : Bool :=
  -- Check direct permissions
  if userPermissions.contains (required.resource ++ "." ++ required.action) then
    true
  -- Check wildcard permissions
  else if userPermissions.contains (required.resource ++ ".*")
      || userPermissions.contains ("*." ++ required.action)
      || userPermissions.contains "*.*" then
    true
  -- Check role-based permissions
  else if userRoles.any (fun role => role.name == "ADMIN" || role.name == "SYSTEM_ADMIN") then
    true
  -- Organisation-specific checks
  else if required.organisationId.isSome && userOrgId != required.organisationId then
    false
  else
    false

/-- The two guard conditions of `enforceOrgIsolation` (`index.ts` lines
311–324), extracted as the standalone operation the spec calls
`checkIsolation(requestedOrgId, userOrgId)`: deny when the user has no
organisation but the request names one; deny when both are present and
differ; otherwise allow. -/
def checkIsolation (requestedOrgId userOrgId : Option String) : Bool :=
  -- Independent users (no org) can only access their own resources
  if userOrgId.isNone && requestedOrgId.isSome then
    false
  -- Organisation users can only access their own org's resources
  else if userOrgId.isSome && requestedOrgId.isSome && userOrgId != requestedOrgId then
    false
  else
    true

/-- The `enforceOrgIsolation` middleware (`index.ts` lines 304–345): require
an authenticated user, take `req.params[orgIdParam] || req.body.organisationId`
as the requested organisation, and apply the two isolation guards
(`checkIsolation`); a guard failure is caught as 403 FORBIDDEN. -/
def enforceOrgIsolation (paramOrgId bodyOrgId : Option String)
    (user : Option UserContext) : MWOutcome :=
  match user with
  | none => .forbidden
  | some u =>
    let requestedOrgId := paramOrgId.or bodyOrgId
    if checkIsolation requestedOrgId u.organisationId then .next else .forbidden

/-- The permission loop of `authorize` (`index.ts` lines 215–228): walk the
required permissions in order and throw (→ 403) at the first one
`checkPermission` denies; reaching the end calls `next()`. -/
def authorizeLoop (u : UserContext) : List PermissionCheck → MWOutcome
  | [] => .next
  | p :: rest =>
    if checkPermission p u.permissions u.roles u.organisationId then
      authorizeLoop u rest
    else
      .forbidden

/-- The `authorize` middleware (`index.ts` lines 203–251): no authenticated
user → 403; otherwise run every required permission through
`checkPermission`, 403 at the first denial, `next()` if all pass. -/
def authorize (requiredPermissions : List PermissionCheck)
    (user : Option UserContext) : MWOutcome :=
  match user with
  | none => .forbidden
  | some u => authorizeLoop u requiredPermissions

/-- The `requireOwnershipOrAdmin` middleware (`index.ts` lines 256–299):
no authenticated user → 403; otherwise allow iff the user holds a role named
`ADMIN` or `SYSTEM_ADMIN`, or `req.params[resourceIdParam]` equals the
user's own id. -/
def requireOwnershipOrAdmin (resourceId : Option String)
    (user : Option UserContext) : MWOutcome :=
  match user with
  | none => .forbidden
  | some u =>
    let isAdmin := u.roles.any (fun role =>
      role.name == "ADMIN" || role.name == "SYSTEM_ADMIN")
    let ownsResource := resourceId == some u.id
    if !isAdmin && !ownsResource then .forbidden else .next

/-- The exact-or-wildcard permission-string match of `checkPermission`
rules 1–4, as one predicate (used to state the evaluator's full
characterisation). -/
def permStringMatch (required : PermissionCheck) (userPermissions : List String) : Bool :=
  userPermissions.contains (required.resource ++ "." ++ required.action)
    || userPermissions.contains (required.resource ++ ".*")
    || userPermissions.contains ("*." ++ required.action)
    || userPermissions.contains "*.*"

/-- The `ADMIN` / `SYSTEM_ADMIN` superuser-role test shared by
`checkPermission` and `requireOwnershipOrAdmin`. -/
def hasAdminRole (userRoles : List UserRole) : Bool :=
  userRoles.any (fun role => role.name == "ADMIN" || role.name == "SYSTEM_ADMIN")

end EduRank

namespace EduRank

/-! ### Helper lemmas (shared across claims) -/

/-- Both isolation identifiers present and distinct → the second guard of
`checkIsolation` fires and the check denies. -/
theorem checkIsolation_some_some_ne (a b : String) (h : b ≠ a) :
    checkIsolation (some a) (some b) = false := by
  simp [checkIsolation, h]

/-- The loop of `authorize` reaches `next` exactly when `checkPermission`
grants every required permission in the list. -/
theorem authorizeLoop_next_iff (u : UserContext) (l : List PermissionCheck) :
    authorizeLoop u l = .next ↔
      ∀ p ∈ l, checkPermission p u.permissions u.roles u.organisationId = true := by
  induction l with
  | nil => simp [authorizeLoop]
  | cons p rest ih =>
    by_cases hc : checkPermission p u.permissions u.roles u.organisationId = true
    · simp [authorizeLoop, hc, ih]
    · simp [authorizeLoop, hc]

/-- A non-admin role list makes the superuser test of `checkPermission`
evaluate to `false`. -/
theorem hasAdminRole_eq_false (roles : List UserRole)
    (h : ∀ r ∈ roles, r.name ≠ "ADMIN" ∧ r.name ≠ "SYSTEM_ADMIN") :
    hasAdminRole roles = false := by
  simp only [hasAdminRole, List.any_eq_false, Bool.or_eq_false_iff,
    beq_eq_false_iff_ne, ne_eq]
  intro r hr
  simp only [Bool.or_eq_true, beq_iff_eq, not_or]
  exact ⟨(h r hr).1, (h r hr).2⟩

end EduRank

namespace EduRank

/-! ### Claim theorems -/

/-- C1 (counterexample): the claim as stated is false on the code — for
`required = {resource: org, action: manage, organisationId: A}`,
`userPermissions = [org.manage]`, no roles, `userOrgId = B`,
`checkPermission` does NOT return `false`: the exact-match rule fires first
and grants, before the organisation check is reached. -/
theorem C1_counterexample :
    checkPermission ⟨"org", "manage", some "A"⟩ ["org.manage"] [] (some "B") ≠ false := by
  decide

/-- C1 (amended): on this input `checkPermission` returns `true` — the exact
permission-string match grants before the evaluator's organisation clause is
reached — and the cross-organisation denial the claim describes is instead
produced by the separate isolation check, whose guard
`checkIsolation "A" "B"` denies. -/
theorem C1_cross_org_exact_match :
    checkPermission ⟨"org", "manage", some "A"⟩ ["org.manage"] [] (some "B") = true
    ∧ checkIsolation (some "A") (some "B") = false := by
  exact ⟨by decide, by decide⟩

/-- C2: for a user whose role list holds no role named `ADMIN` or
`SYSTEM_ADMIN`, `checkPermission` grants iff `userPermissions` contains the
exact `resource.action` string, or `resource.*`, or `*.action`, or `*.*`;
any other permission-string set yields `false`. -/
theorem C2_nonadmin_grant_iff_string_match (required : PermissionCheck)
    (perms : List String) (roles : List UserRole) (orgId : Option String)
    (h : ∀ r ∈ roles, r.name ≠ "ADMIN" ∧ r.name ≠ "SYSTEM_ADMIN") :
    checkPermission required perms roles orgId = true ↔
      (perms.contains (required.resource ++ "." ++ required.action) = true
        ∨ perms.contains (required.resource ++ ".*") = true
        ∨ perms.contains ("*." ++ required.action) = true
        ∨ perms.contains "*.*" = true) := by
  have hadmin : roles.any (fun role => role.name == "ADMIN" || role.name == "SYSTEM_ADMIN") = false :=
    hasAdminRole_eq_false roles h
  unfold checkPermission
  rw [hadmin]
  cases h1 : perms.contains (required.resource ++ "." ++ required.action) <;>
    cases h2 : perms.contains (required.resource ++ ".*") <;>
      cases h3 : perms.contains ("*." ++ required.action) <;>
        cases h4 : perms.contains "*.*" <;>
          simp

/-- C2 witness: a teacher-role user with `course.edit` is granted
`{resource: course, action: edit}`. -/
theorem C2_witness :
    checkPermission ⟨"course", "edit", none⟩ ["course.edit"] [⟨"r1", "TEACHER", none⟩] none = true := by
  have h := C2_nonadmin_grant_iff_string_match ⟨"course", "edit", none⟩
    ["course.edit"] [⟨"r1", "TEACHER", none⟩] none (by decide)
  exact h.mpr (Or.inl (by decide))

/-- C3: a user holding some role named `ADMIN` or `SYSTEM_ADMIN` is granted
every `PermissionCheck`, whatever the permission strings, the requested
organisation, or the user's own organisation. -/
theorem C3_admin_bypass (required : PermissionCheck) (perms : List String)
    (roles : List UserRole) (orgId : Option String)
    (h : ∃ r ∈ roles, r.name = "ADMIN" ∨ r.name = "SYSTEM_ADMIN") :
    checkPermission required perms roles orgId = true := by
  have hadmin : roles.any (fun role => role.name == "ADMIN" || role.name == "SYSTEM_ADMIN") = true := by
    rw [List.any_eq_true]
    obtain ⟨r, hr, hname⟩ := h
    refine ⟨r, hr, ?_⟩
    cases hname with
    | inl h1 => simp [h1]
    | inr h2 => simp [h2]
  unfold checkPermission
  rw [hadmin]
  cases h1 : perms.contains (required.resource ++ "." ++ required.action) <;>
    cases h2 : perms.contains (required.resource ++ ".*")
      || perms.contains ("*." ++ required.action)
      || perms.contains "*.*" <;>
      simp

/-- C3 witness: a `SYSTEM_ADMIN` of organisation `B` with no permission
strings is granted an organisation-`A`-scoped check. -/
theorem C3_witness :
    checkPermission ⟨"org", "manage", some "A"⟩ [] [⟨"r1", "SYSTEM_ADMIN", some "B"⟩] (some "B") = true :=
  C3_admin_bypass ⟨"org", "manage", some "A"⟩ [] [⟨"r1", "SYSTEM_ADMIN", some "B"⟩] (some "B")
    ⟨⟨"r1", "SYSTEM_ADMIN", some "B"⟩, by decide, Or.inr rfl⟩

end EduRank

namespace EduRank

/-- C4: the isolation check denies when the user has no organisation but the
request names one, denies when both organisations are present and differ,
and allows when the request names no organisation alongside no user
organisation or when both organisations coincide — including the four
concrete cases `(null,null) ↦ true`, `(A,null) ↦ false`, `(A,A) ↦ true`,
`(A,B) ↦ false`. -/
theorem C4_isolation_rules :
    (∀ s : String, checkIsolation (some s) none = false)
    ∧ (∀ s t : String, s ≠ t → checkIsolation (some s) (some t) = false)
    ∧ (checkIsolation none none = true)
    ∧ (∀ s : String, checkIsolation (some s) (some s) = true)
    ∧ (checkIsolation (some "A") none = false
        ∧ checkIsolation (some "A") (some "A") = true
        ∧ checkIsolation (some "A") (some "B") = false) := by
  refine ⟨fun s => rfl, fun s t h => ?_, rfl, fun s => ?_, by decide, by decide, by decide⟩
  · exact checkIsolation_some_some_ne s t (fun e => h e.symm)
  · simp [checkIsolation]

/-- C4 witness: the two-distinct-organisations rule applied at
`requestedOrgId = A`, `userOrgId = B`. -/
theorem C4_witness : checkIsolation (some "A") (some "B") = false :=
  C4_isolation_rules.2.1 "A" "B" (by decide)

/-- C5: the isolation middleware's decision never depends on roles — two
authenticated contexts agreeing on `organisationId` receive the same outcome
for the same requested organisation, whatever their role lists — and in
particular a user holding an `ADMIN` / `SYSTEM_ADMIN` role is still denied
when the requested organisation differs from the user's own. -/
theorem C5_isolation_role_independent (u1 u2 : UserContext)
    (paramOrg bodyOrg : Option String)
    (horg : u1.organisationId = u2.organisationId) :
    enforceOrgIsolation paramOrg bodyOrg (some u1)
      = enforceOrgIsolation paramOrg bodyOrg (some u2)
    ∧ (∀ (u : UserContext) (a b : String), hasAdminRole u.roles = true →
        u.organisationId = some b → a ≠ b →
        enforceOrgIsolation (some a) none (some u) = MWOutcome.forbidden) := by
  constructor
  · simp [enforceOrgIsolation, horg]
  · intro u a b _ horgu hne
    have hdeny : checkIsolation (some a) (some b) = false :=
      checkIsolation_some_some_ne a b (fun e => hne e.symm)
    simp [enforceOrgIsolation, horgu, hdeny]

/-- C5 witness: a `SYSTEM_ADMIN` of organisation `B` and a role-less user of
organisation `B` receive the same outcome on a request for organisation `A`,
and the `SYSTEM_ADMIN` is denied there. -/
theorem C5_witness :
    enforceOrgIsolation (some "A") none
        (some ⟨"u1", some "B", [⟨"r1", "SYSTEM_ADMIN", some "B"⟩], []⟩)
      = enforceOrgIsolation (some "A") none (some ⟨"u2", some "B", [], []⟩)
    ∧ enforceOrgIsolation (some "A") none
        (some ⟨"u1", some "B", [⟨"r1", "SYSTEM_ADMIN", some "B"⟩], []⟩)
      = MWOutcome.forbidden := by
  have h := C5_isolation_role_independent
    ⟨"u1", some "B", [⟨"r1", "SYSTEM_ADMIN", some "B"⟩], []⟩
    ⟨"u2", some "B", [], []⟩ (some "A") none rfl
  exact ⟨h.1, h.2 ⟨"u1", some "B", [⟨"r1", "SYSTEM_ADMIN", some "B"⟩], []⟩
    "A" "B" (by decide) rfl (by decide)⟩

/-- C6: the evaluator is a total Boolean function of its four arguments — it
never throws — and equals “some permission string matches exactly or by
wildcard, or an `ADMIN` / `SYSTEM_ADMIN` role is held”; in particular a
permission set containing only non-matching or malformed strings makes both
sides `false`: the evaluator denies silently instead of raising. -/
theorem C6_evaluator_total (required : PermissionCheck) (perms : List String)
    (roles : List UserRole) (orgId : Option String) :
    checkPermission required perms roles orgId
      = (permStringMatch required perms || hasAdminRole roles) := by
  unfold checkPermission permStringMatch hasAdminRole
  cases h1 : perms.contains (required.resource ++ "." ++ required.action) <;>
    cases h2 : perms.contains (required.resource ++ ".*") <;>
      cases h3 : perms.contains ("*." ++ required.action) <;>
        cases h4 : perms.contains "*.*" <;>
          cases h5 : roles.any (fun role => role.name == "ADMIN" || role.name == "SYSTEM_ADMIN") <;>
            simp [h1, h2, h3, h4, h5]

/-- C7: both decision procedures are deterministic pure functions — two
evaluations on identical arguments are definitionally the same value, which
is all that two-run determinism states in a side-effect-free embedding. -/
theorem C7_deterministic (required : PermissionCheck) (perms : List String)
    (roles : List UserRole) (orgId reqOrg userOrg : Option String) :
    checkPermission required perms roles orgId = checkPermission required perms roles orgId
    ∧ checkIsolation reqOrg userOrg = checkIsolation reqOrg userOrg :=
  ⟨rfl, rfl⟩

/-- C8: `authorize` is conjunctive and fail-closed — with no authenticated
user it answers 403; with an authenticated user it calls `next` exactly when
`checkPermission` grants every required permission, and its only other
outcome is 403. -/
theorem C8_authorize_conjunctive (reqd : List PermissionCheck) (u : UserContext) :
    authorize reqd none = MWOutcome.forbidden
    ∧ (authorize reqd (some u) = MWOutcome.next ↔
        ∀ p ∈ reqd, checkPermission p u.permissions u.roles u.organisationId = true)
    ∧ (authorize reqd (some u) = MWOutcome.next
        ∨ authorize reqd (some u) = MWOutcome.forbidden) := by
  refine ⟨rfl, authorizeLoop_next_iff u reqd, ?_⟩
  cases authorize reqd (some u) with
  | next => exact Or.inl rfl
  | forbidden => exact Or.inr rfl

/-- C9: when the request carries no organisation identifier the isolation
check allows every user — including one who belongs to an organisation — a
case the spec's rules leave uncovered. -/
theorem C9_no_requested_org_allows (userOrgId : Option String) (u : UserContext) :
    checkIsolation none userOrgId = true
    ∧ enforceOrgIsolation none none (some u) = MWOutcome.next := by
  constructor
  · cases userOrgId <;> simp [checkIsolation]
  · have h : checkIsolation none u.organisationId = true := by
      cases h : u.organisationId <;> simp [checkIsolation]
    simp [enforceOrgIsolation, h]

/-- C10: for an authenticated user, `requireOwnershipOrAdmin` proceeds
exactly when the user holds an `ADMIN` / `SYSTEM_ADMIN` role or the route's
resource identifier equals the user's own id; its only other outcome is
403. -/
theorem C10_ownership_or_admin (resourceId : Option String) (u : UserContext) :
    (requireOwnershipOrAdmin resourceId (some u) = MWOutcome.next ↔
      (hasAdminRole u.roles = true ∨ resourceId = some u.id))
    ∧ (requireOwnershipOrAdmin resourceId (some u) = MWOutcome.next
        ∨ requireOwnershipOrAdmin resourceId (some u) = MWOutcome.forbidden) := by
  constructor
  · have hdef : requireOwnershipOrAdmin resourceId (some u)
        = (if !(hasAdminRole u.roles) && !(resourceId == some u.id)
            then MWOutcome.forbidden else MWOutcome.next) := rfl
    rw [hdef]
    cases ha : hasAdminRole u.roles <;> cases ho : resourceId == some u.id <;>
      simp_all [beq_eq_false_iff_ne, beq_iff_eq]
  · cases requireOwnershipOrAdmin resourceId (some u) with
    | next => exact Or.inl rfl
    | forbidden => exact Or.inr rfl

end EduRank
